import Mathlib

/-!
Verification development for the invest workbench UI components
`src/renderer/components/LogTab/index.jsx` and
`src/components/SetupTab/ArgsForm/index.jsx`.

The JavaScript components are shallowly embedded as pure Lean functions:
component state becomes explicit record-passing, event handlers become
state transformers, and the external collaborators (the sanitize-html
library, the regex engine, the datastack parser, the parent's callbacks)
are modelled as explicit parameters or as small executable models noted
in their doc comments.
-/

namespace Invest

/-! ## The sanitisation boundary

`LogTab` passes every log line through the external `sanitize-html`
library with these options (`ALLOWED_HTML_OPTIONS` in the source):
only the inline text tag `span` is allowed, and for it only the
`class` attribute.  The library parses its input as HTML, drops every
disallowed tag and attribute (keeping text content), and re-serialises
the surviving allowed nodes with entity-escaped text.  The model below
follows that pipeline: tokenise, build a forest of allowed nodes,
serialise.  It is specialised to `ALLOWED_HTML_OPTIONS`. -/

/-- LOG_TEXT_TAG from the source: the single allowed inline tag. -/
def LOG_TEXT_TAG : String := "span"

/-- Sanitiser options record, mirroring the shape of the source constant. -/
structure HtmlOptions where
  allowedTags : List String
  allowedAttributes : List (String × List String)
  deriving Repr, DecidableEq

/-- ALLOWED_HTML_OPTIONS from the source: only the span tag, and for it
only the class attribute. -/
def ALLOWED_HTML_OPTIONS : HtmlOptions :=
  { allowedTags := [LOG_TEXT_TAG]
    allowedAttributes := [(LOG_TEXT_TAG, ["class"])] }

/-- Entity-escaping of one text character, as done by the sanitiser when
it re-serialises text content. -/
def escTextChar (c : Char) : List Char :=
  if c = '&' then "&amp;".toList
  else if c = '<' then "&lt;".toList
  else if c = '>' then "&gt;".toList
  else [c]

/-- Entity-escaping of text content. -/
def escText (s : String) : String :=
  String.mk (s.toList.flatMap escTextChar)

/-- Entity-escaping of one attribute-value character (quotes escaped too). -/
def escAttrChar (c : Char) : List Char :=
  if c = '&' then "&amp;".toList
  else if c = '<' then "&lt;".toList
  else if c = '>' then "&gt;".toList
  else if c = '\"' then "&quot;".toList
  else [c]

/-- Entity-escaping of an attribute value. -/
def escAttr (s : String) : String :=
  String.mk (s.toList.flatMap escAttrChar)

/-- Whitespace as it delimits HTML attributes. -/
def wsChar (c : Char) : Bool :=
  c = ' ' || c = '\t' || c = '\n' || c = '\r' || c = '\x0c'

/-- Does the character list start with the given pattern? -/
def startsWithChars : List Char → List Char → Bool
  | [], _ => true
  | _ :: _, [] => false
  | p :: ps, c :: cs => p = c && startsWithChars ps cs

/-- ASCII letter test. -/
def isAsciiLetter (c : Char) : Bool :=
  ('A' ≤ c && c ≤ 'Z') || ('a' ≤ c && c ≤ 'z')

/-- Split a character list at the first closing angle bracket: the raw
tag contents before it and the remainder after it. -/
def splitAtGt : List Char → Option (List Char × List Char)
  | [] => none
  | c :: rest =>
    if c = '>' then some ([], rest)
    else
      match splitAtGt rest with
      | some (a, b) => some (c :: a, b)
      | none => none

/-- Leading tag name of a raw tag body, lowercased. -/
def tagName : List Char → List Char
  | [] => []
  | c :: rest =>
    if isAsciiLetter c || c.isDigit then Char.toLower c :: tagName rest else []

/-- Drop the leading tag name of a raw tag body. -/
def dropName : List Char → List Char
  | [] => []
  | c :: rest =>
    if isAsciiLetter c || c.isDigit then dropName rest else c :: rest

/-- Skip leading attribute-delimiting whitespace. -/
def skipWsL : List Char → List Char
  | [] => []
  | c :: r => if wsChar c then skipWsL r else c :: r

/-- Take an attribute name: characters up to whitespace, an equals sign,
a slash or a quote. -/
def spanAttrName : List Char → List Char × List Char
  | [] => ([], [])
  | c :: r =>
    if wsChar c || c = '=' || c = '/' || c = '\"' || c = '\'' then ([], c :: r)
    else
      let (a, b) := spanAttrName r
      (c :: a, b)

/-- Take characters up to (and consuming) a closing quote. -/
def takeUntilChar (q : Char) : List Char → List Char × List Char
  | [] => ([], [])
  | c :: r =>
    if c = q then ([], r)
    else
      let (a, b) := takeUntilChar q r
      (c :: a, b)

/-- Take an unquoted attribute value: characters up to whitespace. -/
def spanUnquoted : List Char → List Char × List Char
  | [] => ([], [])
  | c :: r =>
    if wsChar c then ([], c :: r)
    else
      let (a, b) := spanUnquoted r
      (c :: a, b)

/-- Scan the attribute region of a raw tag body for the first class
attribute and return its value.  Fuel-indexed; the fuel is chosen larger
than the region's length at every call site. -/
def parseAttrs : Nat → List Char → Option String
  | 0, _ => none
  | _, [] => none
  | fuel + 1, c :: rest =>
    if wsChar c || c = '/' || c = '=' || c = '\"' || c = '\'' then
      parseAttrs fuel rest
    else
      let (nm, r1) := spanAttrName (c :: rest)
      let r2 := skipWsL r1
      match r2 with
      | '=' :: r3 =>
        let r4 := skipWsL r3
        let (v, r5) :=
          match r4 with
          | '\"' :: r => takeUntilChar '\"' r
          | '\'' :: r => takeUntilChar '\'' r
          | _ => spanUnquoted r4
        if String.mk (nm.map Char.toLower) = "class" then some (String.mk v)
        else parseAttrs fuel r5
      | _ =>
        if String.mk (nm.map Char.toLower) = "class" then some ""
        else parseAttrs fuel r2

/-- Token stream produced by the sanitiser's parser, specialised to
`ALLOWED_HTML_OPTIONS`: text characters, span open tags (with their
surviving class attribute), span close tags, and all other tags
(which the sanitiser drops). -/
inductive Tok where
  | tchar (c : Char)
  | openSpan (cls : Option String)
  | closeSpan
  | otherTag
  deriving Repr, DecidableEq

/-- Classify one raw tag body as a token. -/
def classifyTag (raw : List Char) : Tok :=
  match raw with
  | '/' :: r =>
    if String.mk (tagName r) = LOG_TEXT_TAG then Tok.closeSpan else Tok.otherTag
  | _ =>
    if String.mk (tagName raw) = LOG_TEXT_TAG then
      Tok.openSpan (parseAttrs (raw.length + 1) (dropName raw))
    else Tok.otherTag

/-- Does a tag begin here (after an opening angle bracket)? -/
def isTagStart : List Char → Bool
  | [] => false
  | c :: _ => isAsciiLetter c || c = '/' || c = '!' || c = '?'

/-- Decode a leading character entity (after an ampersand). -/
def entityAt (cs : List Char) : Option (Char × List Char) :=
  if startsWithChars "amp;".toList cs then some ('&', cs.drop 4)
  else if startsWithChars "lt;".toList cs then some ('<', cs.drop 3)
  else if startsWithChars "gt;".toList cs then some ('>', cs.drop 3)
  else if startsWithChars "quot;".toList cs then some ('\"', cs.drop 5)
  else if startsWithChars "#39;".toList cs then some ('\'', cs.drop 4)
  else none

/-- Tokenise an HTML input the way the sanitiser's parser does,
specialised to `ALLOWED_HTML_OPTIONS`.  Fuel-indexed; each step consumes
at least one character, so fuel larger than the input length suffices. -/
def tokenize : Nat → List Char → List Tok
  | 0, _ => []
  | _, [] => []
  | fuel + 1, '<' :: rest =>
    if isTagStart rest then
      match splitAtGt rest with
      | some (raw, r2) => classifyTag raw :: tokenize fuel r2
      | none => []
    else Tok.tchar '<' :: tokenize fuel rest
  | fuel + 1, '&' :: rest =>
    match entityAt rest with
    | some (c, r2) => Tok.tchar c :: tokenize fuel r2
    | none => Tok.tchar '&' :: tokenize fuel rest
  | fuel + 1, c :: rest => Tok.tchar c :: tokenize fuel rest

/-- Forest of nodes that survive sanitisation under
`ALLOWED_HTML_OPTIONS`: text, and span elements carrying an optional
class attribute.  By construction nothing else can appear in sanitiser
output. -/
inductive SForest where
  | nil
  | textCons (s : String) (rest : SForest)
  | spanCons (cls : Option String) (children : SForest) (rest : SForest)
  deriving Repr, DecidableEq

/-- Concatenation of forests. -/
def appendF : SForest → SForest → SForest
  | SForest.nil, g => g
  | SForest.textCons s f, g => SForest.textCons s (appendF f g)
  | SForest.spanCons c k f, g => SForest.spanCons c k (appendF f g)

/-- Build a forest from a token stream: an open span collects children
until the matching close; a close with no open ends the current level.
Returns the forest plus the unconsumed tokens. -/
def buildF : Nat → List Tok → SForest × List Tok
  | 0, toks => (SForest.nil, toks)
  | _, [] => (SForest.nil, [])
  | fuel + 1, t :: rest =>
    match t with
    | Tok.tchar c =>
      let (f, r) := buildF fuel rest
      (SForest.textCons (String.mk [c]) f, r)
    | Tok.closeSpan => (SForest.nil, rest)
    | Tok.otherTag => buildF fuel rest
    | Tok.openSpan cls =>
      let (kids, r) := buildF fuel rest
      let (sib, r2) := buildF fuel r
      (SForest.spanCons cls kids sib, r2)

/-- Driver for `buildF`: stray close tags (which terminate a level with
tokens left over) are dropped and parsing continues. -/
def buildTop : Nat → List Tok → SForest
  | 0, _ => SForest.nil
  | _, [] => SForest.nil
  | fuel + 1, toks =>
    let (f, r) := buildF (fuel + 1) toks
    appendF f (buildTop fuel r)

/-- Parse-and-filter phase of the sanitiser: the forest of surviving
nodes for an input string. -/
def sanitizeForest (s : String) : SForest :=
  let toks := tokenize (s.length + 1) s.toList
  buildTop (toks.length + 1) toks

/-- Serialisation of a surviving forest: text is entity-escaped, span
elements carry at most a class attribute, unclosed spans are closed. -/
def serForest : SForest → String
  | SForest.nil => ""
  | SForest.textCons s f => escText s ++ serForest f
  | SForest.spanCons cls kids f =>
    (match cls with
     | some v => "<" ++ LOG_TEXT_TAG ++ " class=\"" ++ escAttr v ++ "\">"
     | none => "<" ++ LOG_TEXT_TAG ++ ">")
      ++ serForest kids ++ "</" ++ LOG_TEXT_TAG ++ ">" ++ serForest f

/-- Model of the external sanitize-html library specialised to
`ALLOWED_HTML_OPTIONS`: parse, keep only allowed nodes, re-serialise. -/
def sanitizeHtml (s : String) : String :=
  serForest (sanitizeForest s)

/-- A string is valid under `ALLOWED_HTML_OPTIONS` when it is the
serialisation of a forest of allowed nodes: entity-escaped text and
span elements with at most a class attribute, properly nested. -/
def validUnderOptions (s : String) : Prop :=
  ∃ f : SForest, s = serForest f

/-! ## Log line classification

LOG_ERROR_REGEX in the source is
`(Traceback)|(([A-Z]\x7b1\x7d[a-z]*)\x7b1,\x7dError)|(ERROR)|(^\s\s*)`:
a line is an error line when it contains the literal `Traceback`, or a
run of capitalised words followed by the literal `Error`, or the
literal `ERROR`, or when it starts with a whitespace character.  The
predicate below implements exactly that search semantics on the
character list of the line. -/

/-- Whitespace in the sense of the regex class backslash-s of the
host regex engine. -/
def jsWhitespace (c : Char) : Bool :=
  c = ' ' || c = '\t' || c = '\n' || c = '\x0b' || c = '\x0c' || c = '\r'
    || c = '\u00a0' || c = '\u1680' || ('\u2000' ≤ c && c ≤ '\u200a')
    || c = '\u2028' || c = '\u2029' || c = '\u202f' || c = '\u205f'
    || c = '\u3000' || c = '\ufeff'

/-- Uppercase Latin letter. -/
def latinUpper (c : Char) : Bool := 'A' ≤ c && c ≤ 'Z'

/-- Lowercase Latin letter. -/
def latinLower (c : Char) : Bool := 'a' ≤ c && c ≤ 'z'

/-- Scanner for the capitalised-words-then-Error alternative.  The
boolean state records whether the current position is preceded by a
nonempty run of Latin letters that starts with an uppercase letter (a
match of one or more capitalised groups); if so and the literal `Error`
starts here, the alternative matches. -/
def capErrorAux : List Char → Bool → Bool
  | [], _ => false
  | c :: rest, st =>
    if st && startsWithChars "Error".toList (c :: rest) then true
    else
      capErrorAux rest
        (if latinUpper c then true else if latinLower c then st else false)

/-- Does the string contain the given pattern as a contiguous run? -/
def containsSeq (pat : List Char) : List Char → Bool
  | [] => startsWithChars pat []
  | c :: rest => startsWithChars pat (c :: rest) || containsSeq pat rest

/-- Test of LOG_ERROR_REGEX against a line (regex search semantics). -/
def logErrorTest (s : String) : Bool :=
  let cs := s.toList
  containsSeq "Traceback".toList cs
    || capErrorAux cs false
    || containsSeq "ERROR".toList cs
    || (match cs with
        | c :: _ => jsWhitespace c
        | [] => false)

/-- The ordered pattern table built in the LogTab constructor
(`this.logPatterns`): the error pattern first, then the primary-module
pattern.  The primary pattern compiles the pyModuleName prop with the
external regex engine; it is modelled as an abstract line predicate. -/
def logPatterns (primaryTest : String → Bool) : List (String × (String → Bool)) :=
  [("invest-log-error", logErrorTest), ("invest-log-primary", primaryTest)]

/-- markupLine from the source: try the patterns in table order; on the
first match wrap the line in the allowed tag carrying the pattern's
class and sanitise; with no match sanitise the bare line. -/
def markupLine (line : String) (patterns : List (String × (String → Bool))) : String :=
  match patterns.find? (fun p => p.2 line) with
  | some p =>
    sanitizeHtml
      ("<" ++ LOG_TEXT_TAG ++ " class=\"" ++ p.1 ++ "\">" ++ line
        ++ "</" ++ LOG_TEXT_TAG ++ ">")
  | none => sanitizeHtml line

/-- The class markupLine assigns to a line: the first matching pattern's
class, if any. -/
def assignedClass (line : String) (patterns : List (String × (String → Bool))) :
    Option String :=
  (patterns.find? (fun p => p.2 line)).map Prod.fst

/-! ## The log buffer

The line handler installed by `tailLogfile` appends, for every line
event, `markupLine(data + os.EOL, this.logPatterns)` to its accumulated
markup string and publishes the whole buffer as new component state. -/

/-- Markup contributed by one delivered line: terminated with the
platform end-of-line sequence, then classified and sanitised. -/
def tailLine (patterns : List (String × (String → Bool))) (eol : String)
    (data : String) : String :=
  markupLine (data ++ eol) patterns

/-- The buffer after a sequence of delivered lines, starting from an
initial markup string: each line's markup is appended in arrival
order. -/
def tailBuffer (patterns : List (String × (String → Bool))) (eol : String)
    (init : String) (lines : List String) : String :=
  lines.foldl (fun buf d => buf ++ tailLine patterns eol d) init

/-- Concatenation of per-line markup, each line processed independently. -/
def joinLines (g : String → String) : List String → String
  | [] => ""
  | d :: ds => g d ++ joinLines g ds

/-! ## The LogTab lifecycle

`LogTab` owns `this.tail` (the Tail handle it tracks) and reacts to
prop changes in `componentDidUpdate`.  The embedding separates the
tracked handle (`tail`, the id stored in `this.tail`) from the resource
view (`active`, the ids of Tail objects whose underlying file watch is
currently established).  Creating a Tail adds a fresh id to `active`;
`unwatch()` on a handle removes that id.  The Tail constructor can
throw; its outcome is passed in as an `Except` value.  The delayed
teardown uses `setTimeout`; scheduling is modelled by a counter of
pending timers, and a firing timer simply calls `unwatchLogfile`. -/

/-- The props LogTab reads in its lifecycle methods.  `none` models an
absent (undefined or empty) prop value. -/
structure LogTabProps where
  logfile : Option String
  jobStatus : Option String
  deriving Repr, DecidableEq

/-- LogTab component state plus the file-watch resource view. -/
structure LogTabState where
  /-- The id stored in `this.tail` (the tracked Tail handle), if any. -/
  tail : Option Nat
  /-- Ids of Tail handles whose underlying watch is currently active. -/
  active : List Nat
  /-- Source of fresh handle ids. -/
  nextId : Nat
  /-- `this.state.logdata`. -/
  logdata : Option String
  /-- Messages reported through `logger.error`. -/
  errorLog : List String
  /-- Number of scheduled (not yet fired) teardown timers. -/
  pendingUnwatch : Nat
  deriving Repr, DecidableEq

/-- The platform end-of-line sequence `os.EOL` (LF on POSIX). -/
def osEOL : String := "\n"

/-- tailLogfile from the source.  On constructor success a new Tail is
created (watch established, `fromBeginning`), stored in `this.tail` and
its line handler installed; on constructor failure the catch block sets
the placeholder buffer and reports through `logger.error` twice (the
message naming the logfile, then the error's stack), without
re-throwing. -/
def tailLogfile (logfile : String) (ctor : Except String Unit)
    (s : LogTabState) : LogTabState :=
  match ctor with
  | Except.ok _ =>
    { s with
      tail := some s.nextId
      active := s.active ++ [s.nextId]
      nextId := s.nextId + 1 }
  | Except.error e =>
    { s with
      logdata := some ("Logfile is missing: " ++ osEOL ++ logfile)
      errorLog := s.errorLog ++ ["Not able to read " ++ logfile, e] }

/-- unwatchLogfile from the source: when a handle is tracked, release
its underlying watch (inside try/catch, so nothing propagates).  The
tracked reference itself is not cleared. -/
def unwatchLogfile (s : LogTabState) : LogTabState :=
  match s.tail with
  | none => s
  | some t => { s with active := s.active.erase t }

/-- componentDidMount from the source: start tailing when a logfile
prop is present. -/
def componentDidMount (props : LogTabProps) (ctor : Except String Unit)
    (s : LogTabState) : LogTabState :=
  match props.logfile with
  | some f => tailLogfile f ctor s
  | none => s

/-- componentDidUpdate from the source: when the logfile prop is set
and changed, tail the new file; when the job status changed to a
non-running value, schedule a delayed teardown (setTimeout, 3000 ms). -/
def componentDidUpdate (prevProps props : LogTabProps)
    (ctor : Except String Unit) (s : LogTabState) : LogTabState :=
  let s1 :=
    match props.logfile with
    | some f =>
      if prevProps.logfile ≠ props.logfile then tailLogfile f ctor s else s
    | none => s
  if props.jobStatus ≠ some "running" ∧ prevProps.jobStatus ≠ props.jobStatus then
    { s1 with pendingUnwatch := s1.pendingUnwatch + 1 }
  else s1

/-- componentWillUnmount from the source: synchronous teardown. -/
def componentWillUnmount (s : LogTabState) : LogTabState :=
  unwatchLogfile s

/-- A scheduled teardown timer fires: it runs `unwatchLogfile`. -/
def fireUnwatchTimer (s : LogTabState) : LogTabState :=
  unwatchLogfile { s with pendingUnwatch := s.pendingUnwatch - 1 }

/-! ## The status banner -/

/-- Content items of the status banner, as rendered by LogTab. -/
inductive AlertItem where
  | cancelButton
  | workspaceButton (disabled : Bool)
  | textItem (s : String)
  deriving Repr, DecidableEq

/-- A rendered status banner: its visual variant and its content. -/
structure Banner where
  variant : String
  items : List AlertItem
  deriving Repr, DecidableEq

/-- The Open-Workspace control as defined in render: disabled exactly
while the jobStatus prop is the running value. -/
def workspaceButton (jobStatus : Option String) : AlertItem :=
  AlertItem.workspaceButton (jobStatus = some "running")

/-- The status banner computed by LogTab.render from the jobStatus and
finalTraceback props (rendered into the sidebar portal): running shows
only the Cancel control; error shows the captured traceback plus the
Open-Workspace control; success shows the completion message plus the
Open-Workspace control; anything else renders no banner. -/
def modelStatusAlert (jobStatus : Option String) (finalTraceback : String) :
    Option Banner :=
  if jobStatus = some "running" then
    some { variant := "secondary", items := [AlertItem.cancelButton] }
  else if jobStatus = some "error" then
    some { variant := "danger"
           items := [AlertItem.textItem finalTraceback, workspaceButton jobStatus] }
  else if jobStatus = some "success" then
    some { variant := "success"
           items := [AlertItem.textItem "Model Complete", workspaceButton jobStatus] }
  else none

/-! ## ArgsForm: whole-form drop and drag visual state

`onArchiveDragDrop` resets the drag depth and CSS, then requires
exactly one dropped file, parses it through the external datastack
parser, and either calls the parent's bulk-update callback (module
names match) or alerts with both names.  The parent's `batchUpdateArgs`
and the alert are observed through the `DropResult` record. -/

/-- Result of the external datastack parser `fetchDatastackFromFile`. -/
structure Datastack where
  module_name : String
  args : List (String × String)
  deriving Repr, DecidableEq

/-- The component-local drag state: `this.dragDepth` (a JS number, so
it can go negative) and the form element's class list. -/
structure ArgsFormDragState where
  dragDepth : Int
  classes : List String
  deriving Repr, DecidableEq

/-- classList.remove of the dragging marker. -/
def removeDragging (classes : List String) : List String :=
  classes.filter (fun c => c ≠ "dragging")

/-- classList.add of the dragging marker (token lists hold no
duplicates). -/
def addDragging (classes : List String) : List String :=
  if "dragging" ∈ classes then classes else classes ++ ["dragging"]

/-- The drop handler's first step: reset the drag depth and remove the
dragging CSS marker. -/
def dropFormReset (f : ArgsFormDragState) : ArgsFormDragState :=
  { dragDepth := 0, classes := removeDragging f.classes }

/-- dragEnterHandler from the source: increment the depth, add the
dragging marker if absent. -/
def dragEnterHandler (f : ArgsFormDragState) : ArgsFormDragState :=
  { dragDepth := f.dragDepth + 1, classes := addDragging f.classes }

/-- dragLeaveHandler from the source: decrement the depth, then remove
the dragging marker when the depth is not positive. -/
def dragLeaveHandler (f : ArgsFormDragState) : ArgsFormDragState :=
  let d := f.dragDepth - 1
  { dragDepth := d
    classes := if d ≤ 0 then removeDragging f.classes else f.classes }

/-- The argument-value mapping owned by the parent state container. -/
def ArgsMap : Type := List (String × String)

instance : DecidableEq ArgsMap := by
  unfold ArgsMap
  infer_instance

/-- Everything observable about one whole-form drop: the form's drag
state afterwards, the parent's argument values afterwards, the alerts
raised, the arguments of each bulk-update callback call, and the files
handed to the datastack parser. -/
structure DropResult where
  form : ArgsFormDragState
  argsValues : ArgsMap
  alerts : List String
  batchCalls : List ArgsMap
  fetchCalls : List String
  deriving DecidableEq

/-- The alert text for a module-name mismatch, naming the file's module
and the form's expected module. -/
def mismatchAlert (fileModule expected : String) : String :=
  "Parameter/Log file for " ++ fileModule ++ " does not match this model: "
    ++ expected

/-- The alert text for a drop of anything other than exactly one file. -/
def oneFileAlert : String := "only drop one file at a time."

/-- onArchiveDragDrop from the source.  `fetch` is the external
datastack parser; `argsValues` is the parent's argument state.
Modelled from the spec: the parent's `batchUpdateArgs` callback (in
SetupTab, not under src/) replaces the entire argument set with its
argument. -/
def onArchiveDragDrop (fetch : String → Datastack) (pyModuleName : String)
    (files : List String) (form : ArgsFormDragState) (argsValues : ArgsMap) :
    DropResult :=
  let form' := dropFormReset form
  match files with
  | [f] =>
    let ds := fetch f
    if ds.module_name = pyModuleName then
      { form := form'
        argsValues := ds.args
        alerts := []
        batchCalls := [ds.args]
        fetchCalls := [f] }
    else
      { form := form'
        argsValues := argsValues
        alerts := [mismatchAlert ds.module_name pyModuleName]
        batchCalls := []
        fetchCalls := [f] }
  | _ =>
    { form := form'
      argsValues := argsValues
      alerts := [oneFileAlert]
      batchCalls := []
      fetchCalls := [] }

/-- The drag-state invariant of the claim: the depth never negative and
the dragging marker present exactly while the depth is positive. -/
def dragInv (f : ArgsFormDragState) : Prop :=
  0 ≤ f.dragDepth ∧ ("dragging" ∈ f.classes ↔ 0 < f.dragDepth)

/-! ## Helper lemmas -/

theorem joinLines_append (g : String → String) (l m : List String) :
    joinLines g (l ++ m) = joinLines g l ++ joinLines g m := by
  induction l with
  | nil => simp [joinLines]
  | cons d ds ih => simp [joinLines, ih, String.append_assoc]

theorem tailBuffer_eq_join (patterns : List (String × (String → Bool)))
    (eol init : String) (lines : List String) :
    tailBuffer patterns eol init lines
      = init ++ joinLines (tailLine patterns eol) lines := by
  induction lines generalizing init with
  | nil => simp [tailBuffer, joinLines]
  | cons d ds ih =>
    simp only [tailBuffer, List.foldl_cons, joinLines]
    rw [show List.foldl (fun buf d => buf ++ tailLine patterns eol d)
          (init ++ tailLine patterns eol d) ds
        = tailBuffer patterns eol (init ++ tailLine patterns eol d) ds from rfl]
    rw [ih, String.append_assoc]

theorem mem_addDragging (cs : List String) : "dragging" ∈ addDragging cs := by
  unfold addDragging
  split
  · assumption
  · simp

theorem not_mem_removeDragging (cs : List String) :
    "dragging" ∉ removeDragging cs := by
  simp [removeDragging]

/-- markupLine always returns sanitiser output. -/
theorem markupLine_valid (line : String)
    (patterns : List (String × (String → Bool))) :
    validUnderOptions (markupLine line patterns) := by
  unfold markupLine
  cases hfind : patterns.find? (fun p => p.2 line) with
  | none => exact ⟨sanitizeForest line, rfl⟩
  | some p =>
    exact ⟨sanitizeForest ("<" ++ LOG_TEXT_TAG ++ " class=\"" ++ p.1 ++ "\">"
      ++ line ++ "</" ++ LOG_TEXT_TAG ++ ">"), rfl⟩

/-! ## Claims -/

/-- C3: markupLine tests each line against the named patterns in order
(the error pattern first, then the primary-module pattern), assigns at
most the first matching pattern's class (zero or one class), falls back
to an unstyled but still sanitised wrapper on no match, and its output
is always valid under the sanitiser rule allowing exactly one inline
text-wrapping tag with a class attribute and nothing else. -/
theorem c3_markupLine_classification (line : String)
    (primaryTest : String → Bool) :
    (assignedClass line (logPatterns primaryTest)
      = if logErrorTest line then some "invest-log-error"
        else if primaryTest line then some "invest-log-primary"
        else none)
    ∧ (∀ cls, assignedClass line (logPatterns primaryTest) = some cls →
        markupLine line (logPatterns primaryTest)
          = sanitizeHtml ("<" ++ LOG_TEXT_TAG ++ " class=\"" ++ cls ++ "\">"
              ++ line ++ "</" ++ LOG_TEXT_TAG ++ ">"))
    ∧ (assignedClass line (logPatterns primaryTest) = none →
        markupLine line (logPatterns primaryTest) = sanitizeHtml line)
    ∧ validUnderOptions (markupLine line (logPatterns primaryTest)) := by
  refine ⟨?_, ?_, ?_, markupLine_valid line (logPatterns primaryTest)⟩
  · cases hE : logErrorTest line with
    | true => simp [assignedClass, logPatterns, List.find?, hE]
    | false =>
      cases hP : primaryTest line with
      | true => simp [assignedClass, logPatterns, List.find?, hE, hP]
      | false => simp [assignedClass, logPatterns, List.find?, hE, hP]
  · intro cls h
    unfold markupLine
    cases hfind : (logPatterns primaryTest).find? (fun p => p.2 line) with
    | none => simp [assignedClass, hfind] at h
    | some p =>
      simp only [assignedClass, hfind] at h
      simp only [Option.map_some', Option.some.injEq] at h
      simp [h]
  · intro h
    unfold markupLine
    cases hfind : (logPatterns primaryTest).find? (fun p => p.2 line) with
    | none => rfl
    | some p => simp [assignedClass, hfind] at h

/-- C5: while tailing, the buffer after a sequence of delivered lines
contains the markup of every line in delivery order, each line
independently classified and sanitised after being terminated with the
end-of-line sequence; the buffer is append-only (delivering further
lines only appends their markup), so it is never rewound within one
run. -/
theorem c5_log_buffer_order (patterns : List (String × (String → Bool)))
    (eol init : String) (lines : List String) :
    tailBuffer patterns eol init lines
      = init ++ joinLines (fun d => markupLine (d ++ eol) patterns) lines
    ∧ (∀ more, tailBuffer patterns eol init (lines ++ more)
        = tailBuffer patterns eol init lines
          ++ joinLines (fun d => markupLine (d ++ eol) patterns) more) := by
  have hline : (fun d => markupLine (d ++ eol) patterns) = tailLine patterns eol := rfl
  constructor
  · rw [hline]
    exact tailBuffer_eq_join patterns eol init lines
  · intro more
    rw [hline, tailBuffer_eq_join patterns eol init (lines ++ more),
      tailBuffer_eq_join patterns eol init lines, joinLines_append,
      String.append_assoc]

/-- C6: when establishing the file watch fails (the Tail constructor
throws), the catch block sets the log buffer to the placeholder message
naming the missing logfile, reports the failure twice through the
logger collaborator, and leaves the tracked handle and the watch
resources untouched; `tailLogfile` is total, so no exception propagates
beyond the component. -/
theorem c6_tail_failure_recovery (s : LogTabState) (logfile e : String) :
    (tailLogfile logfile (Except.error e) s).logdata
      = some ("Logfile is missing: " ++ osEOL ++ logfile)
    ∧ (tailLogfile logfile (Except.error e) s).errorLog
      = s.errorLog ++ ["Not able to read " ++ logfile, e]
    ∧ (tailLogfile logfile (Except.error e) s).tail = s.tail
    ∧ (tailLogfile logfile (Except.error e) s).active = s.active :=
  ⟨rfl, rfl, rfl, rfl⟩

/-- C4: tail teardown is idempotent.  A second teardown request —
including a delayed one fired by the fire-and-forget timer after an
earlier teardown already ran — releases nothing twice (erasing the
tracked id from the active set again is a no-op), changes no state, and
raises no error (the error log is untouched). -/
theorem c4_unwatch_idempotent (s : LogTabState) (h : s.active.Nodup) :
    unwatchLogfile (unwatchLogfile s) = unwatchLogfile s
    ∧ (unwatchLogfile s).errorLog = s.errorLog
    ∧ (unwatchLogfile s).logdata = s.logdata := by
  cases ht : s.tail with
  | none => simp [unwatchLogfile, ht]
  | some t =>
    have hem : t ∉ s.active.erase t := by
      intro hmem
      rw [List.Nodup.mem_erase_iff h] at hmem
      exact hmem.1 rfl
    refine ⟨?_, by simp [unwatchLogfile, ht], by simp [unwatchLogfile, ht]⟩
    simp [unwatchLogfile, ht, List.erase_of_not_mem hem]

/-- C4 witness: the double teardown evaluated at a concrete state. -/
theorem c4_unwatch_idempotent_witness :
    unwatchLogfile (unwatchLogfile
        { tail := some 0, active := [0], nextId := 1, logdata := none,
          errorLog := [], pendingUnwatch := 0 })
      = unwatchLogfile
        { tail := some 0, active := [0], nextId := 1, logdata := none,
          errorLog := [], pendingUnwatch := 0 } :=
  (c4_unwatch_idempotent
    { tail := some 0, active := [0], nextId := 1, logdata := none,
      errorLog := [], pendingUnwatch := 0 } (by decide)).1

/-- C1 counterexample: a LogTab with one active tail (id 0, tracked)
receives a logfile prop change.  `componentDidUpdate` calls
`tailLogfile`, which overwrites `this.tail` with the new Tail without
releasing the old one, so afterwards two watches are active — the claim
that the old tail is released and exactly one active tail remains is
false on the code. -/
theorem c1_counterexample :
    (componentDidUpdate
        { logfile := some "a.log", jobStatus := some "running" }
        { logfile := some "b.log", jobStatus := some "running" }
        (Except.ok ())
        { tail := some 0, active := [0], nextId := 1, logdata := none,
          errorLog := [], pendingUnwatch := 0 }).active = [0, 1]
    ∧ (componentDidUpdate
        { logfile := some "a.log", jobStatus := some "running" }
        { logfile := some "b.log", jobStatus := some "running" }
        (Except.ok ())
        { tail := some 0, active := [0], nextId := 1, logdata := none,
          errorLog := [], pendingUnwatch := 0 }).active.length ≠ 1
    ∧ 0 ∈ (componentDidUpdate
        { logfile := some "a.log", jobStatus := some "running" }
        { logfile := some "b.log", jobStatus := some "running" }
        (Except.ok ())
        { tail := some 0, active := [0], nextId := 1, logdata := none,
          errorLog := [], pendingUnwatch := 0 }).active := by
  refine ⟨?_, ?_, ?_⟩ <;> decide

/-- C1 (amended): when the logfile prop changes while a previous tail
is active, `componentDidUpdate` creates a new tail and tracks it, but
does not release the previous tail: every previously active watch stays
active and the new one is added, so afterwards the instance tracks only
the new tail while the old watch remains active until some later
teardown (which releases only the tracked handle). -/
theorem c1_amended_update_tracks_new_tail (prevProps props : LogTabProps)
    (s : LogTabState) (f : String)
    (hf : props.logfile = some f) (hne : prevProps.logfile ≠ props.logfile) :
    (componentDidUpdate prevProps props (Except.ok ()) s).tail = some s.nextId
    ∧ (componentDidUpdate prevProps props (Except.ok ()) s).active
      = s.active ++ [s.nextId] := by
  unfold componentDidUpdate
  rw [hf] at hne ⊢
  simp only [if_pos hne]
  split <;> simp [tailLogfile]

/-- C3 witness: a concrete error line with a non-matching primary
pattern is wrapped with the error class. -/
theorem c3_markupLine_witness :
    markupLine "ValueError: bad" (logPatterns (fun _ => false))
      = sanitizeHtml ("<" ++ LOG_TEXT_TAG ++ " class=\"" ++ "invest-log-error"
          ++ "\">" ++ "ValueError: bad" ++ "</" ++ LOG_TEXT_TAG ++ ">") :=
  (c3_markupLine_classification "ValueError: bad" (fun _ => false)).2.1
    "invest-log-error" (by decide)

/-- C2: dropping exactly one datastack file whose declared module name
equals the form's configured module name replaces the entire argument
set through the bulk-update callback (called once, with the file's full
argument set) and raises no alert; on a module-name mismatch an alert
naming both the file's module and the expected module is raised, no
state-changing callback is invoked, and the argument state is
unchanged. -/
theorem c2_datastack_single_drop (fetch : String → Datastack) (m f : String)
    (form : ArgsFormDragState) (args : ArgsMap) :
    ((fetch f).module_name = m →
      (onArchiveDragDrop fetch m [f] form args).argsValues = (fetch f).args
      ∧ (onArchiveDragDrop fetch m [f] form args).batchCalls = [(fetch f).args]
      ∧ (onArchiveDragDrop fetch m [f] form args).alerts = [])
    ∧ ((fetch f).module_name ≠ m →
      (onArchiveDragDrop fetch m [f] form args).argsValues = args
      ∧ (onArchiveDragDrop fetch m [f] form args).batchCalls = []
      ∧ (onArchiveDragDrop fetch m [f] form args).alerts
        = [mismatchAlert (fetch f).module_name m]) := by
  constructor <;> intro h <;>
    refine ⟨?_, ?_, ?_⟩ <;> simp [onArchiveDragDrop, h]

/-- C2 witness: a matching drop and a mismatching drop evaluated at
concrete inputs. -/
theorem c2_datastack_witness :
    (onArchiveDragDrop (fun _ => ⟨"natcap.invest.carbon", [("ws", "dir")]⟩)
        "natcap.invest.carbon" ["stack.json"] ⟨0, []⟩ [("ws", "old")]).argsValues
      = [("ws", "dir")]
    ∧ (onArchiveDragDrop (fun _ => ⟨"natcap.invest.sdr", [("ws", "dir")]⟩)
        "natcap.invest.carbon" ["stack.json"] ⟨0, []⟩ [("ws", "old")]).argsValues
      = [("ws", "old")] :=
  ⟨((c2_datastack_single_drop (fun _ => ⟨"natcap.invest.carbon", [("ws", "dir")]⟩)
      "natcap.invest.carbon" "stack.json" ⟨0, []⟩ [("ws", "old")]).1 rfl).1,
   ((c2_datastack_single_drop (fun _ => ⟨"natcap.invest.sdr", [("ws", "dir")]⟩)
      "natcap.invest.carbon" "stack.json" ⟨0, []⟩ [("ws", "old")]).2
        (by decide)).1⟩

/-- C7: dropping more than one file on the whole form raises the
single-file alert, aborts before the parser is ever called, invokes no
state-changing callback, and leaves the argument state unchanged. -/
theorem c7_multi_file_drop (fetch : String → Datastack) (m : String)
    (a b : String) (rest : List String) (form : ArgsFormDragState)
    (args : ArgsMap) :
    (onArchiveDragDrop fetch m (a :: b :: rest) form args).alerts
      = [oneFileAlert]
    ∧ (onArchiveDragDrop fetch m (a :: b :: rest) form args).argsValues = args
    ∧ (onArchiveDragDrop fetch m (a :: b :: rest) form args).batchCalls = []
    ∧ (onArchiveDragDrop fetch m (a :: b :: rest) form args).fetchCalls = [] :=
  ⟨rfl, rfl, rfl, rfl⟩

/-- C10: a whole-form drop with an empty file list is treated like a
multi-file drop: the single-file alert is raised before any parsing
(the parser is never called) and no state changes; in general the
handler alerts for every file-list length other than exactly one. -/
theorem c10_zero_file_drop (fetch : String → Datastack) (m : String)
    (form : ArgsFormDragState) (args : ArgsMap) :
    (onArchiveDragDrop fetch m [] form args).alerts = [oneFileAlert]
    ∧ (onArchiveDragDrop fetch m [] form args).fetchCalls = []
    ∧ (onArchiveDragDrop fetch m [] form args).argsValues = args
    ∧ (onArchiveDragDrop fetch m [] form args).batchCalls = []
    ∧ (∀ files : List String, files.length ≠ 1 →
        (onArchiveDragDrop fetch m files form args).alerts = [oneFileAlert]) := by
  refine ⟨rfl, rfl, rfl, rfl, ?_⟩
  intro files hlen
  match files with
  | [] => rfl
  | [f] => exact absurd rfl hlen
  | a :: b :: rest => rfl

/-- C10 witness: the zero-file drop evaluated at concrete inputs. -/
theorem c10_zero_file_witness :
    (onArchiveDragDrop (fun _ => ⟨"m", []⟩) "m" [] ⟨0, []⟩ []).alerts
      = [oneFileAlert] :=
  (c10_zero_file_drop (fun _ => ⟨"m", []⟩) "m" ⟨0, []⟩ []).2.2.2.2 []
    (by decide)

/-- C8: the drag-depth counter increments on drag-enter and decrements
on drag-leave; starting from any state satisfying the invariant, the
dragging marker is present exactly while the counter is positive after
an enter, after a leave taken from positive depth (leaves are preceded
by enters in the DOM event order), and after a drop, which removes the
marker unconditionally; in particular enter, enter, leave leaves the
marker active at depth one, and a further leave or a drop removes
it. -/
theorem c8_drag_depth (f : ArgsFormDragState) (hI : dragInv f) :
    (dragEnterHandler f).dragDepth = f.dragDepth + 1
    ∧ (dragLeaveHandler f).dragDepth = f.dragDepth - 1
    ∧ dragInv (dragEnterHandler f)
    ∧ (0 < f.dragDepth → dragInv (dragLeaveHandler f))
    ∧ dragInv (dropFormReset f)
    ∧ "dragging" ∉ (dropFormReset f).classes
    ∧ (dragLeaveHandler (dragEnterHandler (dragEnterHandler ⟨0, []⟩))).dragDepth
      = 1
    ∧ "dragging"
      ∈ (dragLeaveHandler (dragEnterHandler (dragEnterHandler ⟨0, []⟩))).classes
    ∧ "dragging"
      ∉ (dragLeaveHandler (dragLeaveHandler
          (dragEnterHandler (dragEnterHandler ⟨0, []⟩)))).classes
    ∧ "dragging"
      ∉ (dropFormReset (dragLeaveHandler
          (dragEnterHandler (dragEnterHandler ⟨0, []⟩)))).classes := by
  obtain ⟨h0, hmem⟩ := hI
  refine ⟨rfl, rfl, ⟨?_, ?_⟩, ?_, ⟨le_refl 0, ?_⟩,
    not_mem_removeDragging _, by decide, by decide, by decide, by decide⟩
  · show 0 ≤ f.dragDepth + 1
    omega
  · show "dragging" ∈ addDragging f.classes ↔ 0 < f.dragDepth + 1
    constructor
    · intro _; omega
    · intro _; exact mem_addDragging f.classes
  · intro hpos
    refine ⟨?_, ?_⟩
    · show 0 ≤ f.dragDepth - 1
      omega
    · show "dragging" ∈ (if f.dragDepth - 1 ≤ 0
          then removeDragging f.classes else f.classes)
        ↔ 0 < f.dragDepth - 1
      split
      case isTrue hd =>
        exact ⟨fun hx => absurd hx (not_mem_removeDragging _),
          fun hx => absurd hx (by omega)⟩
      case isFalse hd =>
        rw [hmem]
        omega
  · show "dragging" ∈ removeDragging f.classes ↔ 0 < (0 : Int)
    exact ⟨fun hx => absurd hx (not_mem_removeDragging _),
      fun hx => absurd hx (by omega)⟩

/-- C8 witness: the invariant discharged at concrete drag states. -/
theorem c8_drag_depth_witness :
    dragInv (dragEnterHandler ⟨0, []⟩)
    ∧ dragInv (dragLeaveHandler ⟨1, ["dragging"]⟩) :=
  ⟨(c8_drag_depth ⟨0, []⟩ ⟨by decide, by decide⟩).2.2.1,
   (c8_drag_depth ⟨1, ["dragging"]⟩ ⟨by decide, by decide⟩).2.2.2.1
     (by decide)⟩

/-- C9: the status banner is a pure function of the jobStatus prop:
running shows only the Cancel control, error shows the captured failure
text plus the Open-Workspace control, success shows the completion
message plus the Open-Workspace control, any other value renders no
banner, and the Open-Workspace control is disabled exactly while
jobStatus is running. -/
theorem c9_status_banner (jobStatus : Option String) (finalTraceback : String) :
    (jobStatus = some "running" →
      modelStatusAlert jobStatus finalTraceback
        = some { variant := "secondary", items := [AlertItem.cancelButton] })
    ∧ (jobStatus = some "error" →
      modelStatusAlert jobStatus finalTraceback
        = some { variant := "danger",
                 items := [AlertItem.textItem finalTraceback,
                   AlertItem.workspaceButton false] })
    ∧ (jobStatus = some "success" →
      modelStatusAlert jobStatus finalTraceback
        = some { variant := "success",
                 items := [AlertItem.textItem "Model Complete",
                   AlertItem.workspaceButton false] })
    ∧ (jobStatus ≠ some "running" → jobStatus ≠ some "error" →
        jobStatus ≠ some "success" →
        modelStatusAlert jobStatus finalTraceback = none)
    ∧ (workspaceButton jobStatus = AlertItem.workspaceButton true
        ↔ jobStatus = some "running") := by
  refine ⟨?_, ?_, ?_, ?_, ?_⟩
  · intro h; subst h; rfl
  · intro h; subst h; rfl
  · intro h; subst h; rfl
  · intro h1 h2 h3
    unfold modelStatusAlert
    rw [if_neg h1, if_neg h2, if_neg h3]
  · simp [workspaceButton]

/-- C9 witness: the banner evaluated at each job status. -/
theorem c9_status_banner_witness :
    modelStatusAlert (some "running") "tb"
      = some { variant := "secondary", items := [AlertItem.cancelButton] }
    ∧ modelStatusAlert (some "error") "tb"
      = some { variant := "danger",
               items := [AlertItem.textItem "tb",
                 AlertItem.workspaceButton false] }
    ∧ modelStatusAlert none "tb" = none :=
  ⟨(c9_status_banner (some "running") "tb").1 rfl,
   (c9_status_banner (some "error") "tb").2.1 rfl,
   (c9_status_banner none "tb").2.2.2.1 (by decide) (by decide) (by decide)⟩

/-- C1 (amended) witness: the update evaluated at a concrete state. -/
theorem c1_amended_witness :
    (componentDidUpdate
        { logfile := some "a.log", jobStatus := some "success" }
        { logfile := some "b.log", jobStatus := some "success" }
        (Except.ok ())
        { tail := some 0, active := [0], nextId := 1, logdata := none,
          errorLog := [], pendingUnwatch := 0 }).tail = some 1
    ∧ (componentDidUpdate
        { logfile := some "a.log", jobStatus := some "success" }
        { logfile := some "b.log", jobStatus := some "success" }
        (Except.ok ())
        { tail := some 0, active := [0], nextId := 1, logdata := none,
          errorLog := [], pendingUnwatch := 0 }).active = [0, 1] :=
  c1_amended_update_tracks_new_tail
    { logfile := some "a.log", jobStatus := some "success" }
    { logfile := some "b.log", jobStatus := some "success" }
    { tail := some 0, active := [0], nextId := 1, logdata := none,
      errorLog := [], pendingUnwatch := 0 }
    "b.log" rfl (by decide)

end Invest
